import Mathlib

/-!
Verification of the change-tracking cache in `test_tracker.py`
(content fingerprinter, result store, staleness oracle, CLI).

Files are modelled as optional byte lists (`Option (List Nat)`, each byte
`< 256`); the TSV result store as a `List Record`; the wall clock
(`datetime.now().isoformat()`) as an explicit timestamp argument, since it
is an external effect of the environment.
-/

set_option autoImplicit false

namespace Tracker

/-! ## SHA-256 (the algorithm behind `hashlib.sha256`)

Words are `Nat` reduced mod `2^32` explicitly. -/

def M32 : Nat := 4294967296

def add32 (a b : Nat) : Nat := (a + b) % M32

def rotr (n x : Nat) : Nat := ((x >>> n) ||| (x <<< (32 - n))) % M32

def shr (n x : Nat) : Nat := x >>> n

def smallSigma0 (x : Nat) : Nat := (rotr 7 x) ^^^ (rotr 18 x) ^^^ (shr 3 x)

def smallSigma1 (x : Nat) : Nat := (rotr 17 x) ^^^ (rotr 19 x) ^^^ (shr 10 x)

def bigSigma0 (x : Nat) : Nat := (rotr 2 x) ^^^ (rotr 13 x) ^^^ (rotr 22 x)

def bigSigma1 (x : Nat) : Nat := (rotr 6 x) ^^^ (rotr 11 x) ^^^ (rotr 25 x)

def ch (x y z : Nat) : Nat := (x &&& y) ^^^ ((x ^^^ 4294967295) &&& z)

def maj (x y z : Nat) : Nat := (x &&& y) ^^^ (x &&& z) ^^^ (y &&& z)

/-- The 64 round constants of FIPS 180-4 (decimal). -/
def K : List Nat :=
  [1116352408, 1899447441, 3049323471, 3921009573, 961987163,
   1508970993, 2453635748, 2870763221, 3624381080, 310598401,
   607225278, 1426881987, 1925078388, 2162078206, 2614888103,
   3248222580, 3835390401, 4022224774, 264347078, 604807628,
   770255983, 1249150122, 1555081692, 1996064986, 2554220882,
   2821834349, 2952996808, 3210313671, 3336571891, 3584528711,
   113926993, 338241895, 666307205, 773529912, 1294757372,
   1396182291, 1695183700, 1986661051, 2177026350, 2456956037,
   2730485921, 2820302411, 3259730800, 3345764771, 3516065817,
   3600352804, 4094571909, 275423344, 430227734, 506948616,
   659060556, 883997877, 958139571, 1322822218, 1537002063,
   1747873779, 1955562222, 2024104815, 2227730452, 2361852424,
   2428436474, 2756734187, 3204031479, 3329325298]

/-- The eight initial hash words of FIPS 180-4 (decimal). -/
def initH : List Nat :=
  [1779033703, 3144134277, 1013904242, 2773480762,
   1359893119, 2600822924, 528734635, 1541459225]

/-- Pad a byte message: append `0x80`, zero bytes to 56 mod 64, then the
bit length as 8 big-endian bytes. -/
def padMessage (msg : List Nat) : List Nat :=
  let len := msg.length
  let zeros := (120 - ((len + 1) % 64)) % 64
  msg ++ [128] ++ List.replicate zeros 0 ++
    (List.range 8).map (fun i => ((len * 8) >>> (56 - 8 * i)) % 256)

/-- Split a list into chunks of at most `n` elements, via a fuel argument. -/
def chunksFuel (n : Nat) : Nat → List Nat → List (List Nat)
  | 0, _ => []
  | _, [] => []
  | fuel + 1, bs => bs.take n :: chunksFuel n fuel (bs.drop n)

def chunks (n : Nat) (bs : List Nat) : List (List Nat) :=
  chunksFuel n bs.length bs

/-- The 16 big-endian 32-bit words of a 64-byte block. -/
def blockWords (block : List Nat) : List Nat :=
  (List.range 16).map (fun i =>
    (block.getD (4 * i) 0) * 16777216 + (block.getD (4 * i + 1) 0) * 65536 +
    (block.getD (4 * i + 2) 0) * 256 + block.getD (4 * i + 3) 0)

/-- One step of the message-schedule extension; the list holds the words
produced so far, most recent first. -/
def scheduleStep (ws : List Nat) : List Nat :=
  add32 (add32 (smallSigma1 (ws.getD 1 0)) (ws.getD 6 0))
        (add32 (smallSigma0 (ws.getD 14 0)) (ws.getD 15 0)) :: ws

/-- The 64-entry message schedule, in order. -/
def fullSchedule (w16 : List Nat) : List Nat :=
  (Nat.iterate scheduleStep 48 w16.reverse).reverse

/-- One round of the compression function on the 8-word state. -/
def compressStep (k w : Nat) (st : List Nat) : List Nat :=
  let a := st.getD 0 0
  let b := st.getD 1 0
  let c := st.getD 2 0
  let d := st.getD 3 0
  let e := st.getD 4 0
  let f := st.getD 5 0
  let g := st.getD 6 0
  let h := st.getD 7 0
  let t1 := add32 h (add32 (bigSigma1 e) (add32 (ch e f g) (add32 k w)))
  let t2 := add32 (bigSigma0 a) (maj a b c)
  [add32 t1 t2, a, b, c, add32 d t1, e, f, g]

def processBlock (h0 : List Nat) (block : List Nat) : List Nat :=
  let ws := fullSchedule (blockWords block)
  let st := (K.zip ws).foldl (fun st kw => compressStep kw.1 kw.2 st) h0
  (h0.zip st).map (fun p => add32 p.1 p.2)

/-- The eight 32-bit words of the SHA-256 digest of a byte message. -/
def sha256words (msg : List Nat) : List Nat :=
  (chunks 64 (padMessage msg)).foldl processBlock initH

def hexChar (n : Nat) : Char :=
  if n < 10 then Char.ofNat (48 + n) else Char.ofNat (87 + n)

/-- The 8 lowercase hex characters of a 32-bit word, big-endian. -/
def wordHexChars (x : Nat) : List Char :=
  (List.range 8).map (fun i => hexChar ((x >>> (28 - 4 * i)) % 16))

/-- The 64-character lowercase hex digest, as produced by `hexdigest()`. -/
def sha256hex (msg : List Nat) : String :=
  String.mk ((sha256words msg).flatMap wordHexChars)

/-! ## `get_file_hash` (test_tracker.py lines 19-25)

`hashlib`'s incremental hasher: by its contract, `update(chunk)` extends the
hashed message by `chunk`, so its state is the bytes fed so far. The file is
read in 4096-byte chunks and each chunk fed to the hasher. -/

structure Hasher where
  data : List Nat
deriving Repr, DecidableEq

def Hasher.update (s : Hasher) (chunk : List Nat) : Hasher :=
  ⟨s.data ++ chunk⟩

def Hasher.hexdigest (s : Hasher) : String :=
  sha256hex s.data

/-- `get_file_hash` on a file whose byte content is `content`: feed the file
to a fresh hasher in 4096-byte chunks, return the hex digest. -/
def get_file_hash (content : List Nat) : String :=
  ((chunks 4096 content).foldl Hasher.update ⟨[]⟩).hexdigest

/-- `get_file_hash` called on a path: `open` raises `IOError` when the file
cannot be read (`none`); the function body has no handler, so the error
propagates (`Except.error`). -/
def get_file_hash_io (file : Option (List Nat)) : Except Unit String :=
  match file with
  | none => Except.error ()
  | some content => Except.ok (get_file_hash content)

/-! ## The result store (the `dbbasic.tsv` TSV table named test-tracker)

One row per insertion, with the five string columns of line 17. `query_one`
returns the first matching row, `delete` removes the matching rows, `insert`
appends a row. -/

structure Record where
  component : String
  file_hash : String
  last_tested : String
  passed : String
  issues_count : String
deriving Repr, DecidableEq

def query_one (db : List Record) (c : String) : Option Record :=
  db.find? (fun r => r.component == c)

def db_delete (db : List Record) (c : String) : List Record :=
  db.filter (fun r => !(r.component == c))

def db_insert (db : List Record) (r : Record) : List Record :=
  db ++ [r]

/-- Number of rows stored for component `c`. -/
def countFor (db : List Record) (c : String) : Nat :=
  (db.filter (fun r => r.component == c)).length

/-! ## The staleness oracle and recording (lines 27-67)

The filesystem is a map `fs` from component name to the optional byte
content of `docs/<name>.html`. -/

/-- `needs_testing` (lines 27-47). -/
def needs_testing (fs : String → Option (List Nat)) (db : List Record)
    (component_name : String) : Bool × String :=
  match fs component_name with
  | none => (false, "file not found")
  | some content =>
    let current_hash := get_file_hash content
    match query_one db component_name with
    | none => (true, "never tested")
    | some result =>
      let stored_hash := result.file_hash
      if current_hash ≠ stored_hash then
        (true, "file changed (was " ++ stored_hash.take 8 ++ "..., now " ++
               current_hash.take 8 ++ "...)")
      else
        (false, "unchanged since " ++ result.last_tested)

/-- `record_test_result` (lines 49-67). `timestamp` is the value of
`datetime.now().isoformat()` at the call. Returns the call outcome and the
resulting store: hashing the fixture file (line 52) precedes the delete
(line 58) and the insert (line 61), so when the file is unreadable the open
raises and the store is returned untouched. -/
def record_test_result (fs : String → Option (List Nat)) (db : List Record)
    (component_name : String) (passed : Bool) (issues_count : Nat)
    (timestamp : String) : Except Unit Unit × List Record :=
  match fs component_name with
  | none => (Except.error (), db)
  | some content =>
    let file_hash := get_file_hash content
    let db1 := if (query_one db component_name).isSome
               then db_delete db component_name else db
    (Except.ok (), db_insert db1
      { component := component_name
        file_hash := file_hash
        last_tested := timestamp
        passed := if passed then "true" else "false"
        issues_count := toString issues_count })

/-- `list_all_status` (lines 73-78): the read of the whole store is wrapped
in a bare try/except that turns any failure into the empty list. The store
read outcome is the `Except` argument. -/
def list_all_status (store : Except Unit (List Record)) : List Record :=
  match store with
  | Except.ok rows => rows
  | Except.error _ => []

/-- The `--list` CLI branch (lines 88-96): prints the result of
`list_all_status` and falls off the end of the script, so the process exit
code is 0. Returns (printed rows, exit code). -/
def cli_list (store : Except Unit (List Record)) : List Record × Nat :=
  (list_all_status store, 0)

/-! ## Helper lemmas -/

theorem chunksFuel_flatten (n : Nat) (hn : 0 < n) :
    ∀ (fuel : Nat) (bs : List Nat), bs.length ≤ fuel →
      (chunksFuel n fuel bs).flatten = bs := by
  intro fuel
  induction fuel with
  | zero =>
    intro bs h
    rw [List.length_eq_zero.mp (Nat.le_zero.mp h)]
    rfl
  | succ f ih =>
    intro bs h
    cases bs with
    | nil => rfl
    | cons x t =>
      have hdrop : (List.drop n (x :: t)).length ≤ f := by
        rw [List.length_drop]
        simp only [List.length_cons] at h ⊢
        omega
      calc (chunksFuel n (f + 1) (x :: t)).flatten
          = List.take n (x :: t) ++ (chunksFuel n f (List.drop n (x :: t))).flatten := by
            have hstep : chunksFuel n (f + 1) (x :: t) =
                List.take n (x :: t) :: chunksFuel n f (List.drop n (x :: t)) := rfl
            rw [hstep, List.flatten_cons]
        _ = List.take n (x :: t) ++ List.drop n (x :: t) := by rw [ih _ hdrop]
        _ = x :: t := List.take_append_drop ..

theorem foldl_update (cs : List (List Nat)) :
    ∀ acc : List Nat, (cs.foldl Hasher.update ⟨acc⟩).data = acc ++ cs.flatten := by
  induction cs with
  | nil => intro acc; simp [List.flatten]
  | cons c t ih =>
    intro acc
    simp only [List.foldl_cons, Hasher.update, List.flatten_cons]
    rw [ih (acc ++ c), List.append_assoc]

/-- `get_file_hash` equals the one-shot SHA-256 of the whole content:
reading in 4096-byte chunks does not change the digest. -/
theorem get_file_hash_eq (content : List Nat) :
    get_file_hash content = sha256hex content := by
  unfold get_file_hash Hasher.hexdigest
  rw [foldl_update]
  unfold chunks
  rw [chunksFuel_flatten 4096 (by decide) content.length content (Nat.le_refl _)]
  rfl

theorem wordHexChars_length (x : Nat) : (wordHexChars x).length = 8 := by
  simp [wordHexChars]

theorem foldl_compress_length (l : List (Nat × Nat)) :
    ∀ st : List Nat, st.length = 8 →
      (l.foldl (fun st kw => compressStep kw.1 kw.2 st) st).length = 8 := by
  induction l with
  | nil => intro st h; exact h
  | cons p t ih => intro st _; exact ih _ rfl

theorem processBlock_length (h0 block : List Nat) (h : h0.length = 8) :
    (processBlock h0 block).length = 8 := by
  have hst := foldl_compress_length (K.zip (fullSchedule (blockWords block))) h0 h
  unfold processBlock
  rw [List.length_map, List.length_zip, h, hst]
  simp

theorem foldl_processBlock_length (cs : List (List Nat)) :
    ∀ h0 : List Nat, h0.length = 8 → (cs.foldl processBlock h0).length = 8 := by
  induction cs with
  | nil => intro h0 h; exact h
  | cons b t ih => intro h0 h; exact ih _ (processBlock_length h0 b h)

theorem sha256words_length (msg : List Nat) : (sha256words msg).length = 8 :=
  foldl_processBlock_length (chunks 64 (padMessage msg)) initH rfl

theorem flatMap_wordHexChars_length :
    ∀ l : List Nat, (l.flatMap wordHexChars).length = 8 * l.length
  | [] => rfl
  | x :: t => by
    rw [List.flatMap_cons, List.length_append, wordHexChars_length,
        flatMap_wordHexChars_length t, List.length_cons]
    omega

theorem sha256hex_length (msg : List Nat) : (sha256hex msg).length = 64 := by
  unfold sha256hex
  rw [String.length_mk, flatMap_wordHexChars_length, sha256words_length]

theorem query_one_db_delete (db : List Record) (c : String) :
    query_one (db_delete db c) c = none := by
  rw [query_one, List.find?_eq_none]
  intro r hr
  have h2 := (List.mem_filter.mp hr).2
  simp only [Bool.not_eq_eq_eq_not, Bool.not_true] at h2
  simp [h2]

theorem query_one_append_single (db : List Record) (r : Record) (c : String)
    (hdb : query_one db c = none) (hr : (r.component == c) = true) :
    query_one (db_insert db r) c = some r := by
  unfold db_insert query_one
  rw [List.find?_append]
  unfold query_one at hdb
  rw [hdb]
  simp [List.find?, hr]

/-- The store after the conditional delete of line 56-58 holds no row for
the component. -/
theorem query_one_db1_none (db : List Record) (c : String) :
    query_one (if (query_one db c).isSome then db_delete db c else db) c = none := by
  cases h : query_one db c with
  | none => simp [h]
  | some r => simp [h, query_one_db_delete]

/-- On an existing file, `record_test_result` succeeds and appends the new
row to the store purged of the component's old rows. -/
theorem record_ok (fs : String → Option (List Nat)) (db : List Record)
    (c : String) (p : Bool) (i : Nat) (t : String) (B : List Nat)
    (hfs : fs c = some B) :
    record_test_result fs db c p i t =
      (Except.ok (), db_insert (if (query_one db c).isSome then db_delete db c else db)
        { component := c, file_hash := get_file_hash B, last_tested := t,
          passed := if p then "true" else "false",
          issues_count := toString i }) := by
  unfold record_test_result
  rw [hfs]

theorem query_one_after_record (fs : String → Option (List Nat)) (db : List Record)
    (c : String) (p : Bool) (i : Nat) (t : String) (B : List Nat)
    (hfs : fs c = some B) :
    query_one (record_test_result fs db c p i t).2 c =
      some { component := c, file_hash := get_file_hash B, last_tested := t,
             passed := if p then "true" else "false",
             issues_count := toString i } := by
  rw [record_ok fs db c p i t B hfs]
  exact query_one_append_single _ _ _ (query_one_db1_none db c) (by simp)

theorem countFor_db_insert (db : List Record) (r : Record) (x : String) :
    countFor (db_insert db r) x =
      countFor db x + (if (r.component == x) then 1 else 0) := by
  unfold countFor db_insert
  rw [List.filter_append, List.length_append, List.filter_singleton]
  cases h : (r.component == x) <;> simp [h]

theorem countFor_db_delete_self (db : List Record) (c : String) :
    countFor (db_delete db c) c = 0 := by
  rw [countFor, List.length_eq_zero, List.filter_eq_nil_iff]
  intro r hr
  have h2 := (List.mem_filter.mp hr).2
  simp only [Bool.not_eq_eq_eq_not, Bool.not_true] at h2
  simp [h2]

theorem countFor_db_delete_le (db : List Record) (c x : String) :
    countFor (db_delete db c) x ≤ countFor db x :=
  (List.Sublist.filter _ (List.filter_sublist db)).length_le

theorem countFor_eq_zero_of_query_none (db : List Record) (c : String)
    (h : query_one db c = none) : countFor db c = 0 := by
  rw [countFor, List.length_eq_zero, List.filter_eq_nil_iff]
  unfold query_one at h
  exact List.find?_eq_none.mp h

theorem countFor_db1_self (db : List Record) (c : String) :
    countFor (if (query_one db c).isSome then db_delete db c else db) c = 0 := by
  cases hq : query_one db c with
  | none => simpa [hq] using countFor_eq_zero_of_query_none db c hq
  | some r => simp [hq, countFor_db_delete_self]

theorem countFor_db1_le (db : List Record) (c x : String) :
    countFor (if (query_one db c).isSome then db_delete db c else db) x ≤
      countFor db x := by
  cases hq : query_one db c with
  | none => simp [hq]
  | some r => simp [hq, countFor_db_delete_le]

/-! ## Concrete fixtures used by witnesses -/

/-- A filesystem with one fixture, `docs/a.html`, whose content is empty. -/
def fsW : String → Option (List Nat) :=
  fun c => if c == "a" then some [] else none

/-- A stored row whose hash agrees with the hash of the empty file on the
first 8 hex characters but differs at the last one. -/
def rW : Record :=
  { component := "a"
    file_hash := "e3b0c44298fc1c149afbf4c8996fb92427ae41e4649b934ca495991b7852b856"
    last_tested := "T0"
    passed := "true"
    issues_count := "0" }

set_option maxRecDepth 100000

/-! ## The claims -/

/-- Claim C1: after `record_test_result(F, passed, issues)` completes
(the fixture file exists with bytes `B`) and the file content is not
modified afterwards, `needs_testing(F)` on the resulting store returns
`(false, "unchanged since <t>")` where `t` is the timestamp stored by that
call. -/
theorem needs_testing_unchanged_after_record (fs : String → Option (List Nat))
    (db : List Record) (c : String) (p : Bool) (i : Nat) (t : String)
    (B : List Nat) (hfs : fs c = some B) :
    (record_test_result fs db c p i t).1 = Except.ok () ∧
    needs_testing fs (record_test_result fs db c p i t).2 c =
      (false, "unchanged since " ++ t) := by
  constructor
  · rw [record_ok fs db c p i t B hfs]
  · unfold needs_testing
    rw [hfs, query_one_after_record fs db c p i t B hfs]
    simp

theorem needs_testing_unchanged_after_record_witness :
    (record_test_result fsW [] "a" true 0 "T1").1 = Except.ok () ∧
    needs_testing fsW (record_test_result fsW [] "a" true 0 "T1").2 "a" =
      (false, "unchanged since " ++ "T1") :=
  needs_testing_unchanged_after_record fsW [] "a" true 0 "T1" [] rfl

/-- Claim C2: when the fixture file exists with bytes `B`, a row is stored,
and the full current fingerprint differs from the full stored fingerprint,
`needs_testing` returns `(true, "file changed (was <p1>..., now <p2>...)")`
with `p1`, `p2` the first 8 characters of the stored and current digests;
the hypothesis is inequality of the full digests, so the decision is
independent of the truncated prefixes. -/
theorem needs_testing_changed (fs : String → Option (List Nat))
    (db : List Record) (c : String) (B : List Nat) (r : Record)
    (hfs : fs c = some B) (hq : query_one db c = some r)
    (hne : get_file_hash B ≠ r.file_hash) :
    needs_testing fs db c =
      (true, "file changed (was " ++ r.file_hash.take 8 ++ "..., now " ++
             (get_file_hash B).take 8 ++ "...)") := by
  unfold needs_testing
  rw [hfs, hq]
  simp [hne]

theorem needs_testing_changed_witness :
    needs_testing fsW [rW] "a" =
      (true, "file changed (was " ++ rW.file_hash.take 8 ++ "..., now " ++
             (get_file_hash []).take 8 ++ "...)") :=
  needs_testing_changed fsW [rW] "a" [] rW rfl rfl (by decide)

/-- Claim C3: when the fixture file exists but the store holds no row for
the component, `needs_testing` returns exactly `(true, "never tested")`. -/
theorem needs_testing_never_tested (fs : String → Option (List Nat))
    (db : List Record) (c : String) (B : List Nat)
    (hfs : fs c = some B) (hq : query_one db c = none) :
    needs_testing fs db c = (true, "never tested") := by
  unfold needs_testing
  rw [hfs, hq]

theorem needs_testing_never_tested_witness :
    needs_testing fsW [] "a" = (true, "never tested") :=
  needs_testing_never_tested fsW [] "a" [] rfl rfl

/-- Claim C4: when the fixture file does not exist, `needs_testing` returns
exactly `(false, "file not found")`, whatever the store holds; the function
is total here (no exception), since the existence check precedes any read. -/
theorem needs_testing_file_not_found (fs : String → Option (List Nat))
    (db : List Record) (c : String) (hfs : fs c = none) :
    needs_testing fs db c = (false, "file not found") := by
  unfold needs_testing
  rw [hfs]

theorem needs_testing_file_not_found_witness :
    needs_testing (fun _ => none) [rW] "a" = (false, "file not found") :=
  needs_testing_file_not_found (fun _ => none) [rW] "a" rfl

/-- Claim C5: if every component has at most one stored row, then after any
`record_test_result` call every component still has at most one row, and
when the call succeeds the recorded component has exactly one row (the old
row is deleted before the new one is inserted). -/
theorem record_upsert_at_most_one (fs : String → Option (List Nat))
    (db : List Record) (c : String) (p : Bool) (i : Nat) (t : String)
    (hinv : ∀ x, countFor db x ≤ 1) :
    (∀ x, countFor (record_test_result fs db c p i t).2 x ≤ 1) ∧
    ((record_test_result fs db c p i t).1 = Except.ok () →
      countFor (record_test_result fs db c p i t).2 c = 1) := by
  cases hfs : fs c with
  | none =>
    have hrec : record_test_result fs db c p i t = (Except.error (), db) := by
      unfold record_test_result
      rw [hfs]
    rw [hrec]
    exact ⟨hinv, fun hok => absurd hok (by simp)⟩
  | some B =>
    rw [record_ok fs db c p i t B hfs]
    constructor
    · intro x
      rw [countFor_db_insert]
      by_cases hcx : c = x
      · subst hcx
        rw [countFor_db1_self]
        simp
      · have hle := le_trans (countFor_db1_le db c x) (hinv x)
        have hb : (c == x) = false := by simpa using hcx
        simpa [hb] using hle
    · intro _
      rw [countFor_db_insert, countFor_db1_self]
      simp

theorem record_upsert_at_most_one_witness :
    countFor (record_test_result fsW
      (record_test_result fsW [] "a" true 0 "T1").2 "a" true 0 "T2").2 "a" = 1 :=
  (record_upsert_at_most_one fsW (record_test_result fsW [] "a" true 0 "T1").2
      "a" true 0 "T2"
      (record_upsert_at_most_one fsW [] "a" true 0 "T1"
        (fun _ => Nat.zero_le 1)).1).2 rfl

/-- Claim C6: the fingerprint of a byte content is a fixed-length (64 hex
character) digest that is a function of the bytes alone: reading in
4096-byte chunks and updating the hasher incrementally yields exactly the
one-shot SHA-256 digest of the whole content. -/
theorem get_file_hash_deterministic (B : List Nat) :
    get_file_hash B = sha256hex B ∧ (get_file_hash B).length = 64 :=
  ⟨get_file_hash_eq B, by rw [get_file_hash_eq B]; exact sha256hex_length B⟩

/-- Claim C8: `get_file_hash` on an unreadable file propagates the open
error (its body has no handler), and on a readable file returns the digest;
an unreadable file never produces a digest. -/
theorem get_file_hash_error_propagates :
    get_file_hash_io none = Except.error () ∧
    (∀ B, get_file_hash_io (some B) = Except.ok (get_file_hash B)) :=
  ⟨rfl, fun _ => rfl⟩

/-- Claim C10: when the fixture file is unreadable, `record_test_result`
raises (the hash at line 52 is computed before the delete at line 58 and
the insert at line 61) and the store is returned completely unchanged. -/
theorem record_missing_file_atomic (fs : String → Option (List Nat))
    (db : List Record) (c : String) (p : Bool) (i : Nat) (t : String)
    (hfs : fs c = none) :
    record_test_result fs db c p i t = (Except.error (), db) := by
  unfold record_test_result
  rw [hfs]

theorem record_missing_file_atomic_witness :
    record_test_result (fun _ => none) [rW] "a" true 0 "T" =
      (Except.error (), [rW]) :=
  record_missing_file_atomic (fun _ => none) [rW] "a" true 0 "T" rfl

/-- Claim C7 counterexample: when reading the store fails, the bare
try/except in `list_all_status` (line 77-78) swallows the error and
returns the empty list, and the `--list` command finishes normally with
exit code 0 — the error is masked and defaulted, not propagated, and the
exit code is not non-zero. -/
theorem list_all_status_masks_error :
    list_all_status (Except.error ()) = [] ∧
    (cli_list (Except.error ())).2 = 0 :=
  ⟨rfl, rfl⟩

/-- Claim C7 (amended): on a successful store read `list_all_status`
returns the rows; on a store-read failure it catches the error and returns
the empty list; the `--list` command exits 0 in both cases. -/
theorem list_all_status_total (rows : List Record) :
    list_all_status (Except.ok rows) = rows ∧
    (cli_list (Except.ok rows)).2 = 0 ∧
    list_all_status (Except.error ()) = [] ∧
    (cli_list (Except.error ())).2 = 0 :=
  ⟨rfl, rfl, rfl, rfl⟩

/-- Claim C9 counterexample: the stored `last_tested` is the value of
`datetime.now().isoformat()` at the call, modelled as the timestamp
argument; nothing in `record_test_result` enforces an increase, so two
successive writes at the same clock reading "T" (possible since the wall
clock is not guaranteed strictly monotone between calls) store equal
timestamps, and the later one is not strictly greater. -/
theorem last_tested_not_strictly_mono :
    ((query_one (record_test_result fsW [] "a" true 0 "T").2 "a").map
        Record.last_tested = some "T") ∧
    ((query_one (record_test_result fsW
        (record_test_result fsW [] "a" true 0 "T").2 "a" true 0 "T").2 "a").map
        Record.last_tested = some "T") ∧
    ¬ ("T" < "T") :=
  ⟨by rw [query_one_after_record fsW [] "a" true 0 "T" [] rfl]; rfl,
   by rw [query_one_after_record fsW _ "a" true 0 "T" [] rfl]; rfl,
   fun h => absurd (String.lt_iff_toList_lt.mp h) (by decide)⟩

/-- Claim C9 (amended): across two successive `record_test_result` writes
for the same component, the stored `last_tested` values are exactly the two
clock readings, so the later stored value is strictly greater whenever the
later clock reading is strictly greater than the earlier one; the code
itself imposes no monotonicity. -/
theorem last_tested_increases (fs : String → Option (List Nat))
    (db : List Record) (c : String) (p1 p2 : Bool) (i1 i2 : Nat)
    (t1 t2 : String) (B : List Nat) (hfs : fs c = some B)
    (hlt : t1 < t2) :
    ((query_one (record_test_result fs db c p1 i1 t1).2 c).map
        Record.last_tested = some t1) ∧
    ((query_one (record_test_result fs
        (record_test_result fs db c p1 i1 t1).2 c p2 i2 t2).2 c).map
        Record.last_tested = some t2) ∧
    t1 < t2 :=
  ⟨by rw [query_one_after_record fs db c p1 i1 t1 B hfs]; rfl,
   by rw [query_one_after_record fs _ c p2 i2 t2 B hfs]; rfl,
   hlt⟩

theorem last_tested_increases_witness :
    ((query_one (record_test_result fsW [] "a" true 0 "T1").2 "a").map
        Record.last_tested = some "T1") ∧
    ((query_one (record_test_result fsW
        (record_test_result fsW [] "a" true 0 "T1").2 "a" false 2 "T2").2 "a").map
        Record.last_tested = some "T2") ∧
    ("T1" : String) < "T2" :=
  last_tested_increases fsW [] "a" true false 0 2 "T1" "T2" [] rfl
    (String.lt_iff_toList_lt.mpr (by decide))

end Tracker
